import Mathlib

/-!
Verification of the control-flow-to-predication (masking) subsystem of
`src/liboslexec/llvm_util.cpp` (class `LLVM_Util`).

Shallow embedding conventions:

* An `llvm::Value` of type `<W x i1>` (a wide boolean / lane predicate) is
  modelled by the concrete `List Bool` of lane values it computes, lane 0
  first.  `IRBuilder::CreateSelect` on such values is the per-lane
  conditional select `createSelect`.
* An `llvm::Value` that may be scalar or wide (for `op_store`) is modelled
  by `WideVal`; `isVectorTy` mirrors `llvm::Type::isVectorTy`.
* Each alloca produced for `m_alloca_for_modified_mask_stack` holds one
  wide-bool value; the model stores the slot's current contents directly,
  so `op_load` of a slot is the stored list and an unmasked `op_store`
  to it (the source wraps such stores in `push_masking_enabled(false)` /
  `pop_masking_enabled()`) replaces the contents.
* C++ `std::vector` used as a stack (`push_back`/`back`/`pop_back`) is a
  `List` whose HEAD is `back()` (the innermost entry); `front()` is the
  last element of the list.
* `ASSERT(cond)` aborts the compilation when `cond` fails; a function
  containing an `ASSERT` (or an out-of-contract `back()` access) is
  modelled as returning `Option`, with `none` for the aborted case.
  `LLVM_Util::pop_masked_loop` contains no assertion at all (it performs
  a bare `pop_back`), so it is modelled as total on the stack's tail.
* `int` counters (which only ever start at 0 and increment) are `Nat`.
-/

/-- Per-lane select, the model of `IRBuilder::CreateSelect` on wide values:
lane `i` of the result is `if c_i then a_i else b_i`. -/
def createSelect {α : Type} : List Bool → List α → List α → List α
  | t :: c, x :: a, y :: b => (if t then x else y) :: createSelect c a b
  | _, _, _ => []

/-- Model of `LLVM_Util::wide_constant_bool`: a `<w x i1>` splat constant. -/
def wide_constant_bool (w : Nat) (b : Bool) : List Bool :=
  List.replicate w b

/-- Replace the last element of a list (used to model a store through
`m_alloca_for_modified_mask_stack.front()`, the outermost slot, when the
list head is the innermost slot). -/
def setLast {α : Type} : List α → α → List α
  | [], _ => []
  | [_], a => [a]
  | x :: y :: xs, a => x :: setLast (y :: xs) a

/-- One entry of the mask scope stack: C++ `LLVM_Util::MaskInfo`. -/
structure MaskInfo where
  mask : List Bool
  negate : Bool
  applied_return_mask_count : Nat
deriving DecidableEq

/-- One entry of the masked loop stack: C++ `LLVM_Util::LoopInfo`.  The two
locations are `Option`s because the source stores `nullptr` there for an
unmasked loop (`is_innermost_loop_masked` tests exactly that). -/
structure LoopInfo where
  location_of_condition_mask : Option (List Bool)
  location_of_continue_mask : Option (List Bool)
  break_count : Nat
  continue_count : Nat
deriving DecidableEq

/-- The mutable masking state of `LLVM_Util` (the fields of the C++ class
that the masking subsystem reads and writes). -/
structure LLVM_Util where
  m_vector_width : Nat
  m_mask_stack : List MaskInfo
  m_alloca_for_modified_mask_stack : List (List Bool)
  m_masked_return_count_stack : List Nat
  m_masked_loop_stack : List LoopInfo
  m_masked_exit_count : Nat
  m_enable_masking_stack : List Bool
deriving DecidableEq

namespace LLVM_Util

/-- `LLVM_Util::push_mask(mask, negate, absolute)`, the blend of a new
conditional predicate into the mask scope stack.  (The source `ASSERT`s
`absolute == false` in the two `negate == true` branches; the claims about
those branches carry that as a hypothesis.) -/
def push_mask (st : LLVM_Util) (mask : List Bool) (negate absolute : Bool) :
    LLVM_Util :=
  match st.m_mask_stack with
  | [] => { st with m_mask_stack := [⟨mask, negate, 0⟩] }
  | mi :: rest =>
    let prev_mask := mi.mask
    let prev_negate := mi.negate
    let applied_return_mask_count :=
      if absolute then 0 else mi.applied_return_mask_count
    let new_entry : MaskInfo :=
      if prev_negate = false then
        if negate = false then
          let blended_mask :=
            if absolute then mask else createSelect prev_mask mask prev_mask
          ⟨blended_mask, false, applied_return_mask_count⟩
        else
          ⟨createSelect mask (wide_constant_bool st.m_vector_width false)
              prev_mask,
            false, applied_return_mask_count⟩
      else
        if negate = false then
          let blended_mask :=
            if absolute then mask
            else
              createSelect prev_mask
                (wide_constant_bool st.m_vector_width false) mask
          ⟨blended_mask, false, applied_return_mask_count⟩
        else
          ⟨createSelect prev_mask prev_mask mask, true,
            applied_return_mask_count⟩
    { st with m_mask_stack := new_entry :: mi :: rest }

/-- `LLVM_Util::pop_mask`: `ASSERT(!m_mask_stack.empty())` then `pop_back`. -/
def pop_mask (st : LLVM_Util) : Option LLVM_Util :=
  match st.m_mask_stack with
  | [] => none
  | _ :: rest => some { st with m_mask_stack := rest }

/-- `LLVM_Util::current_mask`: the logically active predicate of the top
entry, resolving a negated entry via
`CreateSelect(mask, wide false, wide true)`. -/
def current_mask (st : LLVM_Util) : Option (List Bool) :=
  match st.m_mask_stack with
  | [] => none
  | mi :: _ =>
    if mi.negate then
      some (createSelect mi.mask (wide_constant_bool st.m_vector_width false)
        (wide_constant_bool st.m_vector_width true))
    else
      some mi.mask

/-- `LLVM_Util::push_function_mask(startMaskValue)`: allocate a fresh
modified-mask slot holding `startMaskValue` (stored with masking
disabled), push a fresh return-signal counter of 0, and push
`startMaskValue` with `negate=false, absolute=true`. -/
def push_function_mask (st : LLVM_Util) (startMaskValue : List Bool) :
    LLVM_Util :=
  let st1 := { st with
    m_alloca_for_modified_mask_stack :=
      startMaskValue :: st.m_alloca_for_modified_mask_stack,
    m_masked_return_count_stack := 0 :: st.m_masked_return_count_stack }
  st1.push_mask startMaskValue false true

/-- `LLVM_Util::pop_function_mask`: `pop_mask()` (which asserts the mask
stack non-empty), then assert-and-pop the modified-mask slot stack and the
return-signal counter stack. -/
def pop_function_mask (st : LLVM_Util) : Option LLVM_Util :=
  match st.pop_mask with
  | none => none
  | some st1 =>
    match st1.m_alloca_for_modified_mask_stack with
    | [] => none
    | _ :: arest =>
      let st2 := { st1 with m_alloca_for_modified_mask_stack := arest }
      match st2.m_masked_return_count_stack with
      | [] => none
      | _ :: rrest =>
        some { st2 with m_masked_return_count_stack := rrest }

/-- `LLVM_Util::masked_return_count`:
`ASSERT(!m_masked_return_count_stack.empty()); return ...back();`. -/
def masked_return_count (st : LLVM_Util) : Option Nat :=
  st.m_masked_return_count_stack.head?

/-- `LLVM_Util::masked_exit_count`. -/
def masked_exit_count (st : LLVM_Util) : Nat :=
  st.m_masked_exit_count

/-- `LLVM_Util::push_masked_loop`. -/
def push_masked_loop (st : LLVM_Util)
    (location_of_condition_mask location_of_continue_mask :
      Option (List Bool)) : LLVM_Util :=
  { st with m_masked_loop_stack :=
      ⟨location_of_condition_mask, location_of_continue_mask, 0, 0⟩
        :: st.m_masked_loop_stack }

/-- `LLVM_Util::masked_break_count`: 0 when the loop stack is empty,
otherwise the innermost loop's break counter. -/
def masked_break_count (st : LLVM_Util) : Nat :=
  match st.m_masked_loop_stack with
  | [] => 0
  | li :: _ => li.break_count

/-- `LLVM_Util::masked_continue_count`: 0 when the loop stack is empty,
otherwise the innermost loop's continue counter. -/
def masked_continue_count (st : LLVM_Util) : Nat :=
  match st.m_masked_loop_stack with
  | [] => 0
  | li :: _ => li.continue_count

/-- `LLVM_Util::pop_masked_loop`: a bare
`m_masked_loop_stack.pop_back()` with no emptiness assertion, modelled as
taking the tail (the `Option` result is uniform with the other pops; this
one never returns `none` because the source never asserts). -/
def pop_masked_loop (st : LLVM_Util) : Option LLVM_Util :=
  some { st with m_masked_loop_stack := st.m_masked_loop_stack.tail }

/-- `LLVM_Util::op_masked_return`: blend the active lanes of the top mask
entry out of the innermost modified-mask slot (`back()`), store it back
unmasked, and increment the innermost return-signal counter. -/
def op_masked_return (st : LLVM_Util) : Option LLVM_Util :=
  match st.m_mask_stack with
  | [] => none
  | mi :: _ =>
    match st.m_alloca_for_modified_mask_stack with
    | [] => none
    | function_mask :: srest =>
      let modifiedMask :=
        if mi.negate then createSelect mi.mask function_mask mi.mask
        else
          createSelect mi.mask (wide_constant_bool st.m_vector_width false)
            function_mask
      match st.m_masked_return_count_stack with
      | [] => none
      | rc :: rcrest =>
        some { st with
          m_alloca_for_modified_mask_stack := modifiedMask :: srest,
          m_masked_return_count_stack := (rc + 1) :: rcrest }

/-- `LLVM_Util::op_masked_exit`: blend the active lanes of the top mask
entry out of the shader-scope slot (`front()`); when more than one
function scope exists, also blend them out of the innermost slot
(`back()`); increment the global exit counter and the innermost
return-signal counter. -/
def op_masked_exit (st : LLVM_Util) : Option LLVM_Util :=
  match st.m_mask_stack with
  | [] => none
  | mi :: _ =>
    match st.m_alloca_for_modified_mask_stack with
    | [] => none
    | s0 :: srest =>
      let shader_mask := (s0 :: srest).getLastD []
      let modifiedShader :=
        if mi.negate then createSelect mi.mask shader_mask mi.mask
        else
          createSelect mi.mask (wide_constant_bool st.m_vector_width false)
            shader_mask
      let slots1 := setLast (s0 :: srest) modifiedShader
      let slots2 :=
        if 1 < (s0 :: srest).length then
          match slots1 with
          | [] => []
          | function_mask :: frest =>
            let modifiedF :=
              if mi.negate then createSelect mi.mask function_mask mi.mask
              else
                createSelect mi.mask
                  (wide_constant_bool st.m_vector_width false) function_mask
            modifiedF :: frest
        else slots1
      match st.m_masked_return_count_stack with
      | [] => none
      | rc :: rcrest =>
        some { st with
          m_alloca_for_modified_mask_stack := slots2,
          m_masked_exit_count := st.m_masked_exit_count + 1,
          m_masked_return_count_stack := (rc + 1) :: rcrest }

/-- `LLVM_Util::apply_return_to_mask_stack`: when the innermost
return-signal counter exceeds the top entry's
`applied_return_mask_count`, narrow the top entry's mask by the innermost
modified-mask slot and record the counter; otherwise do nothing. -/
def apply_return_to_mask_stack (st : LLVM_Util) : Option LLVM_Util :=
  match st.m_mask_stack, st.m_masked_return_count_stack with
  | mi :: mrest, rc :: _ =>
    if mi.applied_return_mask_count < rc then
      match st.m_alloca_for_modified_mask_stack with
      | [] => none
      | rs_mask :: _ =>
        let newMask :=
          if mi.negate then
            createSelect rs_mask mi.mask
              (wide_constant_bool st.m_vector_width true)
          else createSelect rs_mask mi.mask rs_mask
        some { st with m_mask_stack := ⟨newMask, mi.negate, rc⟩ :: mrest }
    else some st
  | _, _ => none

end LLVM_Util

/-- An LLVM value that is either scalar or wide, for `op_store`. -/
inductive WideVal where
  | scalar (v : Int)
  | wide (lanes : List Int)
deriving DecidableEq

/-- Model of `llvm::Type::isVectorTy` on the stored value's type. -/
def WideVal.isVectorTy : WideVal → Bool
  | .scalar _ => false
  | .wide _ => true

namespace LLVM_Util

/-- `LLVM_Util::op_store(val, ptr)`: an unconditional store when the mask
stack is empty, or the value is not a vector, or the masking-enabled stack
is empty or has `false` on top; otherwise a load of the previous value at
`ptr`, a per-lane select against the top mask entry (swapping the arms for
a negated entry), and a store of the blend.  The model returns the new
contents at `ptr`, given the previous contents. -/
def op_store (st : LLVM_Util) (val prev_at_ptr : WideVal) : WideVal :=
  if st.m_mask_stack.isEmpty ∨ val.isVectorTy = false
      ∨ st.m_enable_masking_stack.isEmpty
      ∨ st.m_enable_masking_stack.headD true = false then
    val
  else
    match st.m_mask_stack, val, prev_at_ptr with
    | mi :: _, .wide lanes, .wide previous_value =>
      if mi.negate = false then
        .wide (createSelect mi.mask lanes previous_value)
      else
        .wide (createSelect mi.mask previous_value lanes)
    | _, _, _ => val

end LLVM_Util

/-- Model of `LLVM_Util::mask_as_int`: bitcast of a `<W x i1>` mask to an
integer (lane `i` becomes bit `i`), then zero-extension to `i32` (the
identity on the underlying natural number). -/
def mask_as_int : List Bool → Nat
  | [] => 0
  | b :: rest => (if b then 1 else 0) + 2 * mask_as_int rest

/-- Model of the native-bit-mask path of `LLVM_Util::int_as_mask`:
truncate the `i32` value to `i16` and bitcast, so lane `i` is bit `i` of
`value % 2 ^ 16`. -/
def int_as_mask_native (w value : Nat) : List Bool :=
  (List.range w).map fun lane_index => (value % 2 ^ 16).testBit lane_index

/-- Model of the synthesized path of `LLVM_Util::int_as_mask`: broadcast
`value` to all lanes, AND lane `i` with the single-bit filter
`1 <<< lane_index`, and compare the result against zero. -/
def int_as_mask_synth (w value : Nat) : List Bool :=
  (List.range w).map fun lane_index =>
    decide (value &&& (1 <<< lane_index) ≠ 0)

/-- `LLVM_Util::int_as_mask`, branching on `m_supports_native_bit_masks`. -/
def int_as_mask (supports_native_bit_masks : Bool) (w value : Nat) :
    List Bool :=
  if supports_native_bit_masks then int_as_mask_native w value
  else int_as_mask_synth w value

/-! ### Helper lemmas about `createSelect` -/

theorem createSelect_replicate_false_left (c b : List Bool) (n : Nat)
    (h : c.length ≤ n) :
    createSelect c (List.replicate n false) b
      = List.zipWith (fun x y => !x && y) c b := by
  induction c generalizing n b with
  | nil => rfl
  | cons t c ih =>
    cases n with
    | zero => simp at h
    | succ n =>
      cases b with
      | nil => rfl
      | cons y b =>
        simp only [List.replicate_succ, createSelect, List.zipWith]
        refine congrArg₂ _ ?_ (ih b n (by simpa using h))
        cases t <;> rfl

theorem createSelect_not_resolve (c : List Bool) (n m : Nat)
    (h1 : c.length ≤ n) (h2 : c.length ≤ m) :
    createSelect c (List.replicate n false) (List.replicate m true)
      = c.map (fun x => !x) := by
  induction c generalizing n m with
  | nil => rfl
  | cons t c ih =>
    cases n with
    | zero => simp at h1
    | succ n =>
      cases m with
      | zero => simp at h2
      | succ m =>
        simp only [List.replicate_succ, createSelect, List.map]
        refine congrArg₂ _ ?_ (ih n m (by simpa using h1) (by simpa using h2))
        cases t <;> rfl

theorem createSelect_and (c b : List Bool) :
    createSelect c b c = List.zipWith (fun x y => x && y) c b := by
  induction c generalizing b with
  | nil => rfl
  | cons t c ih =>
    cases b with
    | nil => rfl
    | cons y b =>
      simp only [createSelect, List.zipWith]
      refine congrArg₂ _ ?_ (ih b)
      cases t <;> rfl

theorem createSelect_or (c b : List Bool) :
    createSelect c c b = List.zipWith (fun x y => x || y) c b := by
  induction c generalizing b with
  | nil => rfl
  | cons t c ih =>
    cases b with
    | nil => rfl
    | cons y b =>
      simp only [createSelect, List.zipWith]
      refine congrArg₂ _ ?_ (ih b)
      cases t <;> rfl

theorem createSelect_clear (c s : List Bool) (n : Nat) (h : c.length ≤ n) :
    createSelect c (List.replicate n false) s
      = List.zipWith (fun a old => if a then false else old) c s := by
  rw [createSelect_replicate_false_left c s n h]
  refine congrFun (congrFun (congrArg _ ?_) c) s
  funext a old
  cases a <;> rfl

theorem createSelect_clear_negated (c s : List Bool) :
    createSelect c s c
      = List.zipWith (fun a old => if a then false else old)
          (c.map (fun x => !x)) s := by
  rw [List.zipWith_map_left, createSelect_and]
  refine congrFun (congrFun (congrArg _ ?_) c) s
  funext a old
  cases a <;> rfl

theorem createSelect_map_not {α : Type} (c : List Bool) (a b : List α) :
    createSelect (c.map (fun x => !x)) a b = createSelect c b a := by
  induction c generalizing a b with
  | nil => cases a <;> cases b <;> rfl
  | cons t c ih =>
    cases a with
    | nil =>
      cases b with
      | nil => rfl
      | cons y b => cases t <;> rfl
    | cons x a =>
      cases b with
      | nil => cases t <;> rfl
      | cons y b =>
        simp only [List.map, createSelect]
        refine congrArg₂ _ ?_ (ih a b)
        cases t <;> rfl

theorem createSelect_length {α : Type} (c : List Bool) (a b : List α) :
    (createSelect c a b).length = min c.length (min a.length b.length) := by
  induction c generalizing a b with
  | nil => cases a <;> cases b <;> simp [createSelect]
  | cons t c ih =>
    cases a with
    | nil => cases b <;> rfl
    | cons x a =>
      cases b with
      | nil => rfl
      | cons y b =>
        simp only [createSelect, List.length_cons, ih a b]
        omega

theorem createSelect_getD {α : Type} (c : List Bool) (a b : List α)
    (i : Nat) (d : α) (hc : i < c.length) (ha : i < a.length)
    (hb : i < b.length) :
    (createSelect c a b).getD i d
      = if c.getD i false then a.getD i d else b.getD i d := by
  induction c generalizing a b i with
  | nil => simp at hc
  | cons t c ih =>
    cases a with
    | nil => simp at ha
    | cons x a =>
      cases b with
      | nil => simp at hb
      | cons y b =>
        cases i with
        | zero => rfl
        | succ i =>
          simp only [createSelect, List.getD_cons_succ]
          exact ih a b i (by simpa using hc) (by simpa using ha)
            (by simpa using hb)

theorem zipWith_getD {α β γ : Type} (f : α → β → γ) (a : List α)
    (b : List β) (i : Nat) (d1 : α) (d2 : β) (d3 : γ)
    (h1 : i < a.length) (h2 : i < b.length) :
    (List.zipWith f a b).getD i d3 = f (a.getD i d1) (b.getD i d2) := by
  induction a generalizing b i with
  | nil => simp at h1
  | cons x a ih =>
    cases b with
    | nil => simp at h2
    | cons y b =>
      cases i with
      | zero => rfl
      | succ i =>
        simp only [List.zipWith, List.getD_cons_succ]
        exact ih b i (by simpa using h1) (by simpa using h2)

/-! ### Claims -/

/-- Claim C1: for every `push(predicate, negate, absolute)` onto a
non-empty mask scope stack, the new entry is computed exactly by the
four-case blend table on `(prevNegate, negate)`:
`(false,false)` gives `absolute ? predicate :
select(prevPredicate, predicate, prevPredicate)` with `negated = false`;
`(false,true)` gives `select(predicate, allFalse, prevPredicate)` with
`negated = false`; `(true,false)` gives `absolute ? predicate :
select(prevPredicate, allFalse, predicate)` with `negated = false`;
`(true,true)` gives `select(prevPredicate, prevPredicate, predicate)` with
`negated = true`. -/
theorem claim_C1 (st : LLVM_Util) (mi : MaskInfo) (mrest : List MaskInfo)
    (m : List Bool) (negate absolute : Bool)
    (hm : st.m_mask_stack = mi :: mrest) :
    (mi.negate = false → negate = false →
      (st.push_mask m negate absolute).m_mask_stack =
        ⟨if absolute then m else createSelect mi.mask m mi.mask, false,
          if absolute then 0 else mi.applied_return_mask_count⟩
          :: mi :: mrest)
    ∧ (mi.negate = false → negate = true → absolute = false →
      (st.push_mask m negate absolute).m_mask_stack =
        ⟨createSelect m (wide_constant_bool st.m_vector_width false) mi.mask,
          false, mi.applied_return_mask_count⟩ :: mi :: mrest)
    ∧ (mi.negate = true → negate = false →
      (st.push_mask m negate absolute).m_mask_stack =
        ⟨if absolute then m
          else
            createSelect mi.mask (wide_constant_bool st.m_vector_width false)
              m,
          false, if absolute then 0 else mi.applied_return_mask_count⟩
          :: mi :: mrest)
    ∧ (mi.negate = true → negate = true → absolute = false →
      (st.push_mask m negate absolute).m_mask_stack =
        ⟨createSelect mi.mask mi.mask m, true,
          mi.applied_return_mask_count⟩ :: mi :: mrest) := by
  refine ⟨fun h1 h2 => ?_, fun h1 h2 h3 => ?_, fun h1 h2 => ?_,
    fun h1 h2 h3 => ?_⟩ <;>
    simp [LLVM_Util.push_mask, hm, h1, h2, *]

/-- Witness for C1: the spec's blend-table coverage example with `W = 4`,
`prev = 1100` (lanes 2 and 3 active) and `new = 1010` (lanes 1 and 3),
checked for the `(false,false)` relative case and the `(true,true)`
case. -/
theorem claim_C1_witness :
    ((⟨4, [⟨[false, false, true, true], false, 0⟩], [], [], [], 0, []⟩ :
        LLVM_Util).push_mask [false, true, false, true] false
        false).m_mask_stack
      = ⟨[false, false, false, true], false, 0⟩
          :: [⟨[false, false, true, true], false, 0⟩]
    ∧ ((⟨4, [⟨[false, false, true, true], true, 0⟩], [], [], [], 0, []⟩ :
        LLVM_Util).push_mask [false, true, false, true] true
        false).m_mask_stack
      = ⟨[false, true, true, true], true, 0⟩
          :: [⟨[false, false, true, true], true, 0⟩] :=
  ⟨(claim_C1 ⟨4, [⟨[false, false, true, true], false, 0⟩], [], [], [], 0, []⟩
      ⟨[false, false, true, true], false, 0⟩ []
      [false, true, false, true] false false rfl).1 rfl rfl,
    (claim_C1 ⟨4, [⟨[false, false, true, true], true, 0⟩], [], [], [], 0, []⟩
      ⟨[false, false, true, true], true, 0⟩ []
      [false, true, false, true] true false rfl).2.2.2 rfl rfl rfl⟩

/-- Claim C2 (amended): for every push onto a non-empty mask scope stack,
the `applied_return_mask_count` of the newly created entry inherits the
parent entry's count unless `absolute` is set, in which case it starts at
0 (the source computes `absolute ? 0 : mi.applied_return_mask_count`,
the reverse of the sentence in the spec). -/
theorem claim_C2 (st : LLVM_Util) (mi : MaskInfo) (mrest : List MaskInfo)
    (m : List Bool) (negate absolute : Bool)
    (hm : st.m_mask_stack = mi :: mrest) :
    (st.push_mask m negate absolute).m_mask_stack.head?.map
        MaskInfo.applied_return_mask_count
      = some (if absolute then 0 else mi.applied_return_mask_count) := by
  cases h1 : mi.negate <;> cases h2 : negate <;>
    simp [LLVM_Util.push_mask, hm, h1, h2]

/-- Counterexample to C2 as stated: a relative (`absolute = false`) push
onto a parent entry whose `applied_return_mask_count` is 1 produces a new
entry with count 1 (inherited), not 0 as the claim requires; and an
`absolute` push onto the same parent produces count 0, not the inherited
1 the claim requires. -/
theorem claim_C2_counterexample :
    ((((⟨4, [⟨[true, true, true, true], false, 1⟩], [], [], [], 0, []⟩ :
          LLVM_Util).push_mask [true, false, true, false] false
          false).m_mask_stack.head?.map MaskInfo.applied_return_mask_count
        = some 1)
      ∧ ¬ ((((⟨4, [⟨[true, true, true, true], false, 1⟩], [], [], [], 0,
            []⟩ : LLVM_Util).push_mask [true, false, true, false] false
            false).m_mask_stack.head?.map
            MaskInfo.applied_return_mask_count) = some 0))
    ∧ ((((⟨4, [⟨[true, true, true, true], false, 1⟩], [], [], [], 0, []⟩ :
          LLVM_Util).push_mask [true, false, true, false] false
          true).m_mask_stack.head?.map MaskInfo.applied_return_mask_count
        = some 0)
      ∧ ¬ ((((⟨4, [⟨[true, true, true, true], false, 1⟩], [], [], [], 0,
            []⟩ : LLVM_Util).push_mask [true, false, true, false] false
            true).m_mask_stack.head?.map
            MaskInfo.applied_return_mask_count) = some 1)) := by
  decide

/-- Witness for C2 (amended): a relative push onto a parent with count 1
yields a new entry with count 1. -/
theorem claim_C2_witness :
    (((⟨4, [⟨[true, true, true, true], false, 1⟩], [], [], [], 0, []⟩ :
        LLVM_Util).push_mask [true, false, true, false] false
        false).m_mask_stack.head?.map MaskInfo.applied_return_mask_count)
      = some 1 :=
  claim_C2 ⟨4, [⟨[true, true, true, true], false, 1⟩], [], [], [], 0, []⟩
    ⟨[true, true, true, true], false, 1⟩ [] [true, false, true, false]
    false false rfl


/-- `push_mask` never changes the lane width. -/
theorem push_mask_vector_width (st : LLVM_Util) (m : List Bool)
    (negate absolute : Bool) :
    (st.push_mask m negate absolute).m_vector_width = st.m_vector_width := by
  unfold LLVM_Util.push_mask
  cases st.m_mask_stack <;> rfl

/-- `push_mask` changes only the mask stack: overwriting that field again
gives the same state as overwriting it on the original. -/
theorem push_mask_set_stack (st : LLVM_Util) (m : List Bool)
    (negate absolute : Bool) (s : List MaskInfo) :
    { st.push_mask m negate absolute with m_mask_stack := s }
      = { st with m_mask_stack := s } := by
  unfold LLVM_Util.push_mask
  cases st.m_mask_stack <;> rfl

/-- Claim C8: for every predicate `m` (of the lane width), the sequence
`push(m, negate := true, absolute := false); y = current(); pop()` yields
`y = complement(m) AND priorCurrent` when the prior stack is non-empty
(whatever the prior top's negate flag), `y = complement(m)` when the prior
stack is empty, and the pop restores the prior state; `current()` resolves
a negated entry as `select(predicate, allFalse, allTrue)`. -/
theorem claim_C8 (st : LLVM_Util) (m : List Bool)
    (hw : m.length = st.m_vector_width) :
    (st.m_mask_stack = [] →
      (st.push_mask m true false).current_mask
          = some (m.map fun b => !b)
        ∧ (st.push_mask m true false).pop_mask = some st)
    ∧ (∀ mi mrest pc, st.m_mask_stack = mi :: mrest →
        mi.mask.length = st.m_vector_width →
        st.current_mask = some pc →
        (st.push_mask m true false).current_mask
            = some (List.zipWith (fun x y => x && y) (m.map fun b => !b) pc)
          ∧ (st.push_mask m true false).pop_mask = some st) := by
  have hw' : m.length ≤ st.m_vector_width := le_of_eq hw
  constructor
  · intro h
    have hpush0 : (st.push_mask m true false).m_mask_stack
        = [⟨m, true, 0⟩] := by
      simp [LLVM_Util.push_mask, h]
    constructor
    · have hcur0 : (st.push_mask m true false).current_mask
          = some (createSelect m (List.replicate st.m_vector_width false)
              (List.replicate st.m_vector_width true)) := by
        simp [LLVM_Util.current_mask, hpush0, wide_constant_bool,
          push_mask_vector_width]
      rw [hcur0, createSelect_not_resolve m _ _ hw' hw']
    · simp only [LLVM_Util.pop_mask, hpush0]
      rw [push_mask_set_stack, ← h]
  · intro mi mrest pc hm hlen hpc
    have hlen' : mi.mask.length ≤ st.m_vector_width := le_of_eq hlen
    cases hneg : mi.negate with
    | false =>
      have hpc' : pc = mi.mask := by
        have h0 : some mi.mask = some pc := by
          rw [← hpc]
          simp [LLVM_Util.current_mask, hm, hneg]
        exact (Option.some.inj h0).symm
      have hpush : (st.push_mask m true false).m_mask_stack
          = ⟨createSelect m (List.replicate st.m_vector_width false)
                mi.mask, false, mi.applied_return_mask_count⟩
              :: mi :: mrest := by
        simp [LLVM_Util.push_mask, hm, hneg, wide_constant_bool]
      constructor
      · have hcur : (st.push_mask m true false).current_mask
            = some (createSelect m (List.replicate st.m_vector_width false)
                mi.mask) := by
          simp [LLVM_Util.current_mask, hpush]
        rw [hcur, createSelect_replicate_false_left m mi.mask _ hw', hpc',
          List.zipWith_map_left]
      · simp only [LLVM_Util.pop_mask, hpush]
        rw [push_mask_set_stack, ← hm]
    | true =>
      have hpc' : pc = mi.mask.map fun x => !x := by
        have h0 : some (createSelect mi.mask
            (List.replicate st.m_vector_width false)
            (List.replicate st.m_vector_width true)) = some pc := by
          rw [← hpc]
          simp [LLVM_Util.current_mask, hm, hneg, wide_constant_bool]
        rw [← Option.some.inj h0,
          createSelect_not_resolve mi.mask _ _ hlen' hlen']
      have hpush : (st.push_mask m true false).m_mask_stack
          = ⟨createSelect mi.mask mi.mask m, true,
              mi.applied_return_mask_count⟩ :: mi :: mrest := by
        simp [LLVM_Util.push_mask, hm, hneg]
      constructor
      · have hcur : (st.push_mask m true false).current_mask
            = some (createSelect (createSelect mi.mask mi.mask m)
                (List.replicate st.m_vector_width false)
                (List.replicate st.m_vector_width true)) := by
          simp [LLVM_Util.current_mask, hpush, wide_constant_bool,
            push_mask_vector_width]
        have hlen2 : (createSelect mi.mask mi.mask m).length
            ≤ st.m_vector_width := by
          rw [createSelect_length]
          omega
        rw [hcur, createSelect_not_resolve _ _ _ hlen2 hlen2,
          createSelect_or, List.map_zipWith, hpc', List.zipWith_map_left,
          List.zipWith_map_right,
          List.zipWith_comm (fun x y => !(x || y)) mi.mask m]
        have hfun : (fun (b a : Bool) => !(a || b))
            = fun a b => !a && !b := by
          funext a b
          cases a <;> cases b <;> rfl
        rw [hfun]
      · simp only [LLVM_Util.pop_mask, hpush]
        rw [push_mask_set_stack, ← hm]

/-- Witness for C8: `W = 4`, prior top `1100` non-negated, pushing
`m = 1010` negated yields `current = complement(1010) AND 1100 = 0100`,
and the pop restores the prior state. -/
theorem claim_C8_witness :
    ((⟨4, [⟨[false, false, true, true], false, 0⟩], [], [], [], 0, []⟩ :
        LLVM_Util).push_mask [false, true, false, true] true
        false).current_mask
      = some (List.zipWith (fun x y => x && y)
          ([false, true, false, true].map fun b => !b)
          [false, false, true, true])
    ∧ ((⟨4, [⟨[false, false, true, true], false, 0⟩], [], [], [], 0, []⟩ :
        LLVM_Util).push_mask [false, true, false, true] true
        false).pop_mask
      = some ⟨4, [⟨[false, false, true, true], false, 0⟩], [], [], [], 0,
          []⟩ :=
  (claim_C8 ⟨4, [⟨[false, false, true, true], false, 0⟩], [], [], [], 0,
      []⟩ [false, true, false, true] rfl).2
    ⟨[false, false, true, true], false, 0⟩ [] [false, false, true, true]
    rfl rfl rfl

/-- Resolving `current_mask` on a non-negated top entry. -/
theorem current_mask_false (st : LLVM_Util) (mi : MaskInfo)
    (mrest : List MaskInfo) (hm : st.m_mask_stack = mi :: mrest)
    (hneg : mi.negate = false) (r : List Bool)
    (hr : st.current_mask = some r) : r = mi.mask := by
  have h0 : some mi.mask = some r := by
    rw [← hr]
    simp [LLVM_Util.current_mask, hm, hneg]
  exact (Option.some.inj h0).symm

/-- Resolving `current_mask` on a negated top entry: the active predicate
is the complement of the stored one. -/
theorem current_mask_true (st : LLVM_Util) (mi : MaskInfo)
    (mrest : List MaskInfo) (hm : st.m_mask_stack = mi :: mrest)
    (hneg : mi.negate = true)
    (hlen : mi.mask.length = st.m_vector_width) (r : List Bool)
    (hr : st.current_mask = some r) : r = mi.mask.map fun x => !x := by
  have hlen' : mi.mask.length ≤ st.m_vector_width := le_of_eq hlen
  have h0 : some (createSelect mi.mask
      (List.replicate st.m_vector_width false)
      (List.replicate st.m_vector_width true)) = some r := by
    rw [← hr]
    simp [LLVM_Util.current_mask, hm, hneg, wide_constant_bool]
  rw [← Option.some.inj h0, createSelect_not_resolve mi.mask _ _ hlen' hlen']

/-- Claim C3: `op_masked_return` clears exactly the lanes active in the
current mask-stack top predicate (resolving a negated entry) from the
innermost function scope's persistent active-lane slot, leaves all other
lanes of that slot unchanged, and increments that scope's return-signal
counter by exactly 1; in particular for `W = 4`, with function start
predicate `1111` and a nested conditional active on lanes `1100`, after
the masked return and the deferred pop-time fold the function's
persistent slot equals `0011` and `pendingReturnSignals()` equals 1. -/
theorem claim_C3 (st : LLVM_Util) (mi : MaskInfo) (mrest : List MaskInfo)
    (fm : List Bool) (srest : List (List Bool)) (rc : Nat)
    (rcrest : List Nat) (r : List Bool)
    (hm : st.m_mask_stack = mi :: mrest)
    (hs : st.m_alloca_for_modified_mask_stack = fm :: srest)
    (hc : st.m_masked_return_count_stack = rc :: rcrest)
    (hr : st.current_mask = some r)
    (hlen : mi.mask.length = st.m_vector_width) :
    st.op_masked_return = some { st with
        m_alloca_for_modified_mask_stack :=
          List.zipWith (fun a old => if a then false else old) r fm
            :: srest,
        m_masked_return_count_stack := (rc + 1) :: rcrest }
    ∧ (∀ i, i < r.length → i < fm.length →
        (r.getD i false = false →
          (List.zipWith (fun a old => if a then false else old) r
              fm).getD i false = fm.getD i false)
        ∧ (r.getD i false = true →
          (List.zipWith (fun a old => if a then false else old) r
              fm).getD i false = false))
    ∧ (((((⟨4, [], [], [], [], 0, []⟩ : LLVM_Util).push_function_mask
            [true, true, true, true]).push_mask [false, false, true, true]
            false false).op_masked_return).bind
          LLVM_Util.apply_return_to_mask_stack).map
          (fun s => (s.m_alloca_for_modified_mask_stack.headD [],
            s.masked_return_count))
        = some ([true, true, false, false], some 1) := by
  refine ⟨?_, ?_, by decide⟩
  · cases hneg : mi.negate with
    | false =>
      have hrr : r = mi.mask := current_mask_false st mi mrest hm hneg r hr
      simp only [LLVM_Util.op_masked_return, hm, hs, hc, hneg,
        wide_constant_bool, Bool.false_eq_true, if_false]
      rw [hrr, createSelect_clear mi.mask fm _ (le_of_eq hlen)]
    | true =>
      have hrr : r = mi.mask.map fun x => !x :=
        current_mask_true st mi mrest hm hneg hlen r hr
      simp only [LLVM_Util.op_masked_return, hm, hs, hc, hneg, if_true]
      rw [hrr, createSelect_clear_negated mi.mask fm]
  · intro i h1 h2
    constructor
    · intro hri
      rw [zipWith_getD _ r fm i false false false h1 h2, hri]
      simp
    · intro hri
      rw [zipWith_getD _ r fm i false false false h1 h2, hri]
      simp

/-- Witness for C3: the spec scenario state (`W = 4`, function start mask
`1111`, conditional `1100`): the masked return rewrites the slot to
`0011` and bumps the counter to 1. -/
theorem claim_C3_witness :
    (((⟨4, [], [], [], [], 0, []⟩ : LLVM_Util).push_function_mask
        [true, true, true, true]).push_mask [false, false, true, true]
        false false).op_masked_return
      = some ⟨4,
          [⟨[false, false, true, true], false, 0⟩,
            ⟨[true, true, true, true], false, 0⟩],
          [[true, true, false, false]], [1], [], 0, []⟩ :=
  (claim_C3
    (((⟨4, [], [], [], [], 0, []⟩ : LLVM_Util).push_function_mask
        [true, true, true, true]).push_mask [false, false, true, true]
        false false)
    ⟨[false, false, true, true], false, 0⟩
    [⟨[true, true, true, true], false, 0⟩]
    [true, true, true, true] [] 0 []
    [false, false, true, true] rfl rfl rfl rfl rfl).1

/-- Claim C4: `op_masked_exit` clears the current top predicate's active
lanes from the shader-exit slot (the outermost function scope's
persistent slot); if more than one function scope is nested, it clears
the same lanes from the innermost function scope's persistent slot as
well; and it increments both the global exit counter and the innermost
return-signal counter, each by exactly 1. -/
theorem claim_C4 (st : LLVM_Util) (mi : MaskInfo) (mrest : List MaskInfo)
    (fm : List Bool) (srest : List (List Bool)) (rc : Nat)
    (rcrest : List Nat) (r : List Bool)
    (hm : st.m_mask_stack = mi :: mrest)
    (hs : st.m_alloca_for_modified_mask_stack = fm :: srest)
    (hc : st.m_masked_return_count_stack = rc :: rcrest)
    (hr : st.current_mask = some r)
    (hlen : mi.mask.length = st.m_vector_width) :
    (srest = [] →
      st.op_masked_exit = some { st with
        m_alloca_for_modified_mask_stack :=
          [List.zipWith (fun a old => if a then false else old) r fm],
        m_masked_exit_count := st.m_masked_exit_count + 1,
        m_masked_return_count_stack := (rc + 1) :: rcrest })
    ∧ (∀ lastSlot, srest.getLast? = some lastSlot →
      st.op_masked_exit = some { st with
        m_alloca_for_modified_mask_stack :=
          List.zipWith (fun a old => if a then false else old) r fm
            :: setLast srest
              (List.zipWith (fun a old => if a then false else old) r
                lastSlot),
        m_masked_exit_count := st.m_masked_exit_count + 1,
        m_masked_return_count_stack := (rc + 1) :: rcrest }) := by
  constructor
  · intro h
    subst h
    cases hneg : mi.negate with
    | false =>
      have hrr : r = mi.mask := current_mask_false st mi mrest hm hneg r hr
      have hclear : createSelect mi.mask
          (List.replicate st.m_vector_width false) fm
          = List.zipWith (fun a old => if a then false else old) mi.mask
              fm :=
        createSelect_clear mi.mask fm _ (le_of_eq hlen)
      simp [LLVM_Util.op_masked_exit, hm, hs, hc, hneg,
        wide_constant_bool, setLast, hrr, hclear]
    | true =>
      have hrr : r = mi.mask.map fun x => !x :=
        current_mask_true st mi mrest hm hneg hlen r hr
      have hclear : createSelect mi.mask fm mi.mask
          = List.zipWith (fun a old => if a then false else old)
              (mi.mask.map fun x => !x) fm :=
        createSelect_clear_negated mi.mask fm
      simp [LLVM_Util.op_masked_exit, hm, hs, hc, hneg, setLast, hrr,
        hclear]
  · intro lastSlot hlast
    cases srest with
    | nil => simp at hlast
    | cons s1 srest1 =>
      have hlen2 : 1 < (fm :: s1 :: srest1).length := by
        simp only [List.length_cons]
        omega
      have hlastD : (fm :: s1 :: srest1).getLastD [] = lastSlot := by
        rw [List.getLastD_eq_getLast?, List.getLast?_cons_cons, hlast]
        rfl
      cases hneg : mi.negate with
      | false =>
        have hrr : r = mi.mask :=
          current_mask_false st mi mrest hm hneg r hr
        simp only [LLVM_Util.op_masked_exit, hm, hs, hc, hneg,
          wide_constant_bool, Bool.false_eq_true, if_false, hlastD,
          hlen2, if_true, setLast]
        rw [hrr, createSelect_clear mi.mask fm _ (le_of_eq hlen),
          createSelect_clear mi.mask lastSlot _ (le_of_eq hlen)]
      | true =>
        have hrr : r = mi.mask.map fun x => !x :=
          current_mask_true st mi mrest hm hneg hlen r hr
        simp only [LLVM_Util.op_masked_exit, hm, hs, hc, hneg, if_true,
          hlastD, hlen2, setLast]
        rw [hrr, createSelect_clear_negated mi.mask fm,
          createSelect_clear_negated mi.mask lastSlot]

/-- Witness for C4: `W = 4`, two nested function scopes (slots
`[1111, 1111]`), conditional predicate `1100`: the masked exit clears
lanes 2,3 in both the innermost and the outermost slot, and bumps both
the exit counter and the innermost return counter to 1. -/
theorem claim_C4_witness :
    (⟨4, [⟨[false, false, true, true], false, 0⟩],
        [[true, true, true, true], [true, true, true, true]], [0, 0], [],
        0, []⟩ : LLVM_Util).op_masked_exit
      = some ⟨4, [⟨[false, false, true, true], false, 0⟩],
          [[true, true, false, false], [true, true, false, false]],
          [1, 0], [], 1, []⟩ :=
  (claim_C4
    ⟨4, [⟨[false, false, true, true], false, 0⟩],
      [[true, true, true, true], [true, true, true, true]], [0, 0], [],
      0, []⟩
    ⟨[false, false, true, true], false, 0⟩ [] [true, true, true, true]
    [[true, true, true, true]] 0 [0] [false, false, true, true]
    rfl rfl rfl rfl rfl).2 [true, true, true, true] rfl
/-- Claim C5: `op_store` performs an ordinary unconditional store whenever
no predicate context is active, the value is not a wide value, or masking
is currently disabled (empty masking-enabled stack or `false` on its
top); otherwise it blends the new value with the previous value at the
location per lane using the current resolved (un-negated) predicate, so
inactive lanes keep their previous values. -/
theorem claim_C5 (st : LLVM_Util) (val prev : WideVal) :
    ((st.m_mask_stack.isEmpty ∨ val.isVectorTy = false
        ∨ st.m_enable_masking_stack.isEmpty
        ∨ st.m_enable_masking_stack.headD true = false) →
      st.op_store val prev = val)
    ∧ (∀ mi mrest v p r,
        st.m_mask_stack = mi :: mrest →
        mi.mask.length = st.m_vector_width →
        st.m_enable_masking_stack.headD false = true →
        val = WideVal.wide v → prev = WideVal.wide p →
        st.current_mask = some r →
        st.op_store val prev = WideVal.wide (createSelect r v p)
          ∧ (∀ i, i < r.length → i < v.length → i < p.length →
              r.getD i false = false →
                (createSelect r v p).getD i (0 : Int) = p.getD i 0)) := by
  constructor
  · intro h
    unfold LLVM_Util.op_store
    rw [if_pos h]
  · intro mi mrest v p r hm hlen henable hv hp hr
    cases henv : st.m_enable_masking_stack with
    | nil =>
      rw [henv] at henable
      simp at henable
    | cons e es =>
      rw [henv] at henable
      simp only [List.headD_cons] at henable
      subst henable hv hp
      constructor
      · cases hneg : mi.negate with
        | false =>
          have hrr : r = mi.mask :=
            current_mask_false st mi mrest hm hneg r hr
          simp [LLVM_Util.op_store, hm, henv, hneg, WideVal.isVectorTy,
            hrr]
        | true =>
          have hrr : r = mi.mask.map fun x => !x :=
            current_mask_true st mi mrest hm hneg hlen r hr
          rw [hrr, createSelect_map_not]
          simp [LLVM_Util.op_store, hm, henv, hneg, WideVal.isVectorTy]
      · intro i h1 h2 h3 hri
        rw [createSelect_getD r v p i 0 h1 h2 h3, hri]
        simp

/-- Witness for C5: predicate `1010`, memory `[1,2,3,4]`, masked-storing
`[9,9,9,9]` yields `[9,2,9,4]`; with no predicate context the store is
unconditional. -/
theorem claim_C5_witness :
    (⟨4, [⟨[true, false, true, false], false, 0⟩], [], [], [], 0,
        [true]⟩ : LLVM_Util).op_store (WideVal.wide [9, 9, 9, 9])
        (WideVal.wide [1, 2, 3, 4])
      = WideVal.wide [9, 2, 9, 4]
    ∧ (⟨4, [], [], [], [], 0, []⟩ : LLVM_Util).op_store
        (WideVal.wide [9, 9, 9, 9]) (WideVal.wide [1, 2, 3, 4])
      = WideVal.wide [9, 9, 9, 9] :=
  ⟨((claim_C5 ⟨4, [⟨[true, false, true, false], false, 0⟩], [], [], [],
        0, [true]⟩ (WideVal.wide [9, 9, 9, 9])
        (WideVal.wide [1, 2, 3, 4])).2
      ⟨[true, false, true, false], false, 0⟩ [] [9, 9, 9, 9] [1, 2, 3, 4]
      [true, false, true, false] rfl rfl rfl rfl rfl rfl).1,
    (claim_C5 ⟨4, [], [], [], [], 0, []⟩ (WideVal.wide [9, 9, 9, 9])
        (WideVal.wide [1, 2, 3, 4])).1 (Or.inl rfl)⟩

/-- Claim C6: deferred return-signal folding is applied at most once per
signal: when the innermost return-signal counter exceeds the top entry's
`applied_return_mask_count`, `apply_return_to_mask_stack` narrows the
entry's predicate by the persistent return slot and records the counter;
when it does not exceed it, the entry is left unchanged; hence repeating
the fold without an intervening masked return is a no-op. -/
theorem claim_C6 (st : LLVM_Util) (mi : MaskInfo) (mrest : List MaskInfo)
    (rc : Nat) (rcrest : List Nat)
    (hm : st.m_mask_stack = mi :: mrest)
    (hc : st.m_masked_return_count_stack = rc :: rcrest) :
    (∀ rs srest, st.m_alloca_for_modified_mask_stack = rs :: srest →
      mi.applied_return_mask_count < rc →
      st.apply_return_to_mask_stack = some { st with
        m_mask_stack :=
          ⟨if mi.negate then
              createSelect rs mi.mask
                (wide_constant_bool st.m_vector_width true)
            else createSelect rs mi.mask rs, mi.negate, rc⟩ :: mrest })
    ∧ (rc ≤ mi.applied_return_mask_count →
      st.apply_return_to_mask_stack = some st)
    ∧ (∀ st2, st.apply_return_to_mask_stack = some st2 →
      st2.apply_return_to_mask_stack = some st2) := by
  refine ⟨fun rs srest hsl hlt => ?_, fun hle => ?_, fun st2 h2 => ?_⟩
  · simp [LLVM_Util.apply_return_to_mask_stack, hm, hc, hsl, hlt]
  · simp [LLVM_Util.apply_return_to_mask_stack, hm, hc,
      Nat.not_lt.mpr hle]
  · by_cases hlt : mi.applied_return_mask_count < rc
    · simp only [LLVM_Util.apply_return_to_mask_stack, hm, hc, hlt,
        if_true] at h2
      cases hsl : st.m_alloca_for_modified_mask_stack with
      | nil =>
        rw [hsl] at h2
        simp at h2
      | cons rs srest =>
        rw [hsl] at h2
        simp only [Option.some.injEq] at h2
        subst h2
        simp [LLVM_Util.apply_return_to_mask_stack, hc]
    · simp only [LLVM_Util.apply_return_to_mask_stack, hm, hc, hlt,
        if_false, Option.some.injEq] at h2
      subst h2
      simp [LLVM_Util.apply_return_to_mask_stack, hm, hc, hlt]

/-- Witness for C6: a pending signal (counter 1 vs applied count 0)
narrows the top entry's predicate `0011` by the return slot `1100`
(giving `0000`) and records the counter. -/
theorem claim_C6_witness :
    (⟨4, [⟨[false, false, true, true], false, 0⟩],
        [[true, true, false, false]], [1], [], 0, []⟩ :
        LLVM_Util).apply_return_to_mask_stack
      = some ⟨4, [⟨[false, false, false, false], false, 1⟩],
          [[true, true, false, false]], [1], [], 0, []⟩ :=
  (claim_C6
    ⟨4, [⟨[false, false, true, true], false, 0⟩],
      [[true, true, false, false]], [1], [], 0, []⟩
    ⟨[false, false, true, true], false, 0⟩ [] 1 [] rfl rfl).1
    [true, true, false, false] [] rfl (by decide)

/-- Packing the first `w` bits of `b` into a mask and reading it back as
an integer recovers `b % 2 ^ w`. -/
theorem mask_as_int_testBits (w : Nat) : ∀ b : Nat,
    mask_as_int ((List.range w).map fun i => b.testBit i) = b % 2 ^ w := by
  induction w with
  | zero => simp [mask_as_int, Nat.mod_one]
  | succ w ih =>
    intro b
    rw [List.range_succ_eq_map, List.map_cons, List.map_map]
    have hcomp : ((fun i => b.testBit i) ∘ Nat.succ)
        = fun i => (b / 2).testBit i := by
      funext i
      simp [Function.comp, Nat.testBit_succ]
    rw [mask_as_int, hcomp, ih (b / 2)]
    have hpow : (2 : Nat) ^ (w + 1) = 2 * 2 ^ w := by
      rw [Nat.pow_succ, Nat.mul_comm]
    rw [hpow, Nat.mod_mul]
    have hb0 : (if b.testBit 0 then 1 else 0) = b % 2 := by
      rw [Nat.testBit_zero]
      rcases Nat.mod_two_eq_zero_or_one b with h | h <;> simp [h]
    rw [hb0]

/-- Claim C7: for every integer bitmask `0 ≤ b < 2 ^ W` (with `W ≤ 16`,
the width the codec truncates to), converting it to a lane predicate and
back is the identity, on both the native-predicate path and the
synthesized path (broadcast, AND with per-lane single-bit filters
`1 <<< laneIndex`, compare-not-equal with zero). -/
theorem claim_C7 (supports_native_bit_masks : Bool) (w b : Nat)
    (hw : w ≤ 16) (hb : b < 2 ^ w) :
    mask_as_int (int_as_mask supports_native_bit_masks w b) = b := by
  have hb16 : b < 2 ^ 16 :=
    lt_of_lt_of_le hb (Nat.pow_le_pow_right (by norm_num) hw)
  have hmod : b % 2 ^ 16 = b := Nat.mod_eq_of_lt hb16
  cases supports_native_bit_masks with
  | true =>
    simp only [int_as_mask, if_true, int_as_mask_native, hmod]
    rw [mask_as_int_testBits w b, Nat.mod_eq_of_lt hb]
  | false =>
    have hsynth : int_as_mask_synth w b
        = (List.range w).map fun i => b.testBit i := by
      unfold int_as_mask_synth
      refine List.map_congr_left fun i _ => ?_
      rw [Nat.one_shiftLeft, Nat.and_two_pow]
      cases h : b.testBit i <;> simp [h]
    simp only [int_as_mask, Bool.false_eq_true, if_false]
    rw [hsynth, mask_as_int_testBits w b, Nat.mod_eq_of_lt hb]

/-- Witness for C7: round trip of `b = 13` at `W = 4` on both codec
paths. -/
theorem claim_C7_witness :
    (4 ≤ 16 ∧ 13 < 2 ^ 4)
    ∧ mask_as_int (int_as_mask true 4 13) = 13
    ∧ mask_as_int (int_as_mask false 4 13) = 13 :=
  ⟨by decide, claim_C7 true 4 13 (by decide) (by decide),
    claim_C7 false 4 13 (by decide) (by decide)⟩

/-- Claim C9 (amended): popping an empty mask scope stack or an empty
function scope stack is fatal (the pop asserts and aborts), but
`pop_masked_loop` performs no emptiness check at all: it executes a bare
`pop_back` and proceeds (on an empty loop stack this is undefined
behaviour in the source, not a fail-fast abort). -/
theorem claim_C9 (st : LLVM_Util) :
    (st.m_mask_stack = [] → st.pop_mask = none)
    ∧ ((st.m_mask_stack = [] ∨ st.m_alloca_for_modified_mask_stack = []
        ∨ st.m_masked_return_count_stack = []) →
      st.pop_function_mask = none)
    ∧ st.pop_masked_loop
      = some { st with
          m_masked_loop_stack := st.m_masked_loop_stack.tail } := by
  refine ⟨fun h => by simp [LLVM_Util.pop_mask, h], fun h => ?_, rfl⟩
  rcases h with h | h | h
  · simp [LLVM_Util.pop_function_mask, LLVM_Util.pop_mask, h]
  · cases hms : st.m_mask_stack with
    | nil => simp [LLVM_Util.pop_function_mask, LLVM_Util.pop_mask, hms]
    | cons mi mrest =>
      simp [LLVM_Util.pop_function_mask, LLVM_Util.pop_mask, hms, h]
  · cases hms : st.m_mask_stack with
    | nil => simp [LLVM_Util.pop_function_mask, LLVM_Util.pop_mask, hms]
    | cons mi mrest =>
      cases hsl : st.m_alloca_for_modified_mask_stack with
      | nil =>
        simp [LLVM_Util.pop_function_mask, LLVM_Util.pop_mask, hms, hsl]
      | cons s ss =>
        simp [LLVM_Util.pop_function_mask, LLVM_Util.pop_mask, hms, hsl,
          h]

/-- Counterexample to C9 as stated: `pop_masked_loop` on a state whose
loop-scope stack is empty does not abort — it completes and returns a
state, contradicting the claim that each of the three pops fails fast on
its empty stack. -/
theorem claim_C9_counterexample :
    (⟨4, [], [], [], [], 0, []⟩ : LLVM_Util).pop_masked_loop
      = some ⟨4, [], [], [], [], 0, []⟩ := rfl

/-- Witness for C9 (amended): the mask and function pops abort on empty
stacks; the loop pop proceeds. -/
theorem claim_C9_witness :
    (⟨4, [], [], [], [], 0, []⟩ : LLVM_Util).pop_mask = none
    ∧ (⟨4, [⟨[true], false, 0⟩], [], [], [], 0, []⟩ :
        LLVM_Util).pop_function_mask = none
    ∧ (⟨4, [], [], [], [⟨none, none, 0, 0⟩], 0, []⟩ :
        LLVM_Util).pop_masked_loop
      = some ⟨4, [], [], [], [], 0, []⟩ :=
  ⟨(claim_C9 ⟨4, [], [], [], [], 0, []⟩).1 rfl,
    (claim_C9 ⟨4, [⟨[true], false, 0⟩], [], [], [], 0, []⟩).2.1
      (Or.inr (Or.inl rfl)),
    (claim_C9 ⟨4, [], [], [], [⟨none, none, 0, 0⟩], 0, []⟩).2.2⟩

/-- Claim C10: the pending break- and continue-signal queries are total:
with an empty loop-scope stack they return 0 instead of failing, whereas
`masked_return_count` asserts, so it fails exactly when no function scope
(no return-counter entry) exists. -/
theorem claim_C10 (st : LLVM_Util) :
    (st.m_masked_loop_stack = [] →
      st.masked_break_count = 0 ∧ st.masked_continue_count = 0)
    ∧ (st.masked_return_count = none
        ↔ st.m_masked_return_count_stack = []) := by
  constructor
  · intro h
    exact ⟨by simp [LLVM_Util.masked_break_count, h],
      by simp [LLVM_Util.masked_continue_count, h]⟩
  · simp [LLVM_Util.masked_return_count]

/-- Witness for C10: on a state with no loop scope and no function scope,
the break and continue queries return 0 and the return query fails. -/
theorem claim_C10_witness :
    ((⟨4, [], [], [], [], 0, []⟩ : LLVM_Util).masked_break_count = 0
      ∧ (⟨4, [], [], [], [], 0, []⟩ : LLVM_Util).masked_continue_count
        = 0)
    ∧ ((⟨4, [], [], [], [], 0, []⟩ : LLVM_Util).masked_return_count
        = none
      ↔ (⟨4, [], [], [], [], 0, []⟩ :
          LLVM_Util).m_masked_return_count_stack = []) :=
  ⟨(claim_C10 ⟨4, [], [], [], [], 0, []⟩).1 rfl,
    (claim_C10 ⟨4, [], [], [], [], 0, []⟩).2⟩
